import Mathlib

/-!
# Column-bounded Unicode text scanner: a shallow embedding of `src/unicode/scan.cpp`

This file embeds the scanning engine of libunicode's `scan.cpp` in Lean:

* `scan_for_text_ascii` — the ASCII fast-path scanner.  The source has an
  SSE2-vectorised batch loop followed by a scalar loop over the same two-byte
  predicate; the design notes state the scalar loop is the semantic baseline,
  so the embedding is the scalar loop over the budget-truncated span.
* `scan_for_text_nonascii` — the complex-span scanner (decode / segment /
  measure loop with the budget-overflow rewinds), embedded as a step function
  `naStep` plus a structurally recursive loop `naLoop` over the byte list.
* `scan_for_text` — the driver that alternates the two scanners.  Pointers
  into the buffer become `Int` offsets from the start of the span (the source
  computes `start - state.utf8.currentLength`, which can point before the
  span).  Out-of-bounds byte reads (the unguarded `text.front()`) make the
  driver return `none`.

The three external collaborators are not part of `src/`:

* the incremental UTF-8 decoder `from_utf8` (from `unicode/utf8.h`) is
  modelled from the spec (section 6) as a standard incremental decoder;
* the grapheme-boundary predicate and the per-codepoint display width are
  abstract parameters, bundled in `Collab`; `specCollab` is a concrete sample
  instantiation modelled from the spec, used for concrete evaluations.
-/

/-- Result of feeding one byte to the incremental UTF-8 decoder.
Modelled from the spec (section 6): `decode_step(state, byte) ->
{Incomplete | Success(codepoint) | Invalid}`. -/
inductive ConvertResult : Type where
  | Incomplete : ConvertResult
  | Success : Nat → ConvertResult
  | Invalid : ConvertResult
deriving DecidableEq, Repr

/-- Decoder state: bytes consumed so far, bytes still expected, partially
assembled codepoint value (spec section 3).  `expectedLength = 0` exactly when
no multi-byte sequence is pending. -/
structure utf8_decoder_state : Type where
  character : Nat
  expectedLength : Nat
  currentLength : Nat
deriving DecidableEq, Repr

/-- The empty decoder state. -/
def initialUtf8 : utf8_decoder_state := ⟨0, 0, 0⟩

/-- Modelled from the spec: the incremental UTF-8 decoder `from_utf8` of
`unicode/utf8.h` (an external collaborator, not under `src/`).  It consumes
exactly one byte per call, is resumable through the state, and resets its
progress to empty after emitting `Success` or `Invalid` (spec section 6). -/
def from_utf8 (s : utf8_decoder_state) (b : Nat) : utf8_decoder_state × ConvertResult :=
  if s.expectedLength = 0 then
    if b < 0x80 then
      ({ character := s.character, expectedLength := 0, currentLength := 1 },
       ConvertResult.Success b)
    else if 0xC0 ≤ b ∧ b < 0xE0 then
      ({ character := b % 0x20, expectedLength := 2, currentLength := 1 },
       ConvertResult.Incomplete)
    else if 0xE0 ≤ b ∧ b < 0xF0 then
      ({ character := b % 0x10, expectedLength := 3, currentLength := 1 },
       ConvertResult.Incomplete)
    else if 0xF0 ≤ b ∧ b < 0xF8 then
      ({ character := b % 0x8, expectedLength := 4, currentLength := 1 },
       ConvertResult.Incomplete)
    else
      (initialUtf8, ConvertResult.Invalid)
  else
    if 0x80 ≤ b ∧ b < 0xC0 then
      let ch := s.character * 64 + b % 64
      if s.currentLength + 1 < s.expectedLength then
        ({ character := ch, expectedLength := s.expectedLength,
           currentLength := s.currentLength + 1 }, ConvertResult.Incomplete)
      else
        ({ character := ch, expectedLength := 0, currentLength := s.currentLength + 1 },
         ConvertResult.Success ch)
    else
      (initialUtf8, ConvertResult.Invalid)

/-- Caller-owned scan state (`scan_state` in `unicode/scan.h`): decoder state
plus the last successfully decoded codepoint (0 if none). -/
structure scan_state : Type where
  utf8 : utf8_decoder_state
  lastCodepointHint : Nat
deriving DecidableEq, Repr

/-- A scan state at the start of a logical stream. -/
def freshScanState : scan_state := ⟨initialUtf8, 0⟩

/-- Per-call scan result (`scan_result` in `unicode/scan.h`): column count and
the `next` / `start` / `end` byte offsets, as offsets from the start of the
span handed to the call (`start` may be negative when a multi-byte sequence
was pending from the previous call). -/
structure scan_result : Type where
  count : Nat
  next : Int
  start : Int
  «end» : Int
deriving DecidableEq, Repr

/-- `is_control` of `scan.cpp`: byte value below 0x20. -/
def is_control (b : Nat) : Bool := b < 0x20

/-- `is_complex` of `scan.cpp`: byte with the high bit set (part of a
multi-byte UTF-8 sequence). -/
def is_complex (b : Nat) : Bool := b &&& 0x80 != 0

/-- `is_ascii` of `scan.cpp`: a plain single-column US-ASCII text byte. -/
def is_ascii (b : Nat) : Bool := !is_control b && !is_complex b

/-- Length of the leading run of plain-ASCII bytes (the scalar loop of
`detail::scan_for_text_ascii`). -/
def asciiPrefixLen : List Nat → Nat
  | [] => 0
  | b :: rest => if is_ascii b then asciiPrefixLen rest + 1 else 0

/-- `detail::scan_for_text_ascii`: scan the span truncated to
`min (span length) budget` and return the length of its leading plain run. -/
def scan_for_text_ascii (text : List Nat) (maxColumnCount : Nat) : Nat :=
  asciiPrefixLen (text.take (min text.length maxColumnCount))

/-- The two external collaborators consumed as black boxes by the complex-span
scanner: per-codepoint display width and the grapheme-boundary predicate
(spec section 6). -/
structure Collab : Type where
  width : Nat → Nat
  breakable : Nat → Nat → Bool

/-- Loop state of `detail::scan_for_text_nonascii`: the local variables of the
source function.  `input`, `clusterStart`, `lastCodepointStart` are byte
offsets from the start of the span; `resultEnd` is an `Int` offset because it
is initialised from `resultStart`, which can be negative. -/
structure NAState : Type where
  count : Nat
  input : Nat
  byteCount : Nat
  clusterStart : Nat
  lastCodepointStart : Nat
  currentClusterWidth : Nat
  resultEnd : Int
  ss : scan_state
deriving DecidableEq, Repr

/-- Advance past one consumed byte: `*input++` plus `++byteCount` plus storing
the updated decoder state. -/
def naAdv (u : utf8_decoder_state) (s : NAState) : NAState :=
  { s with input := s.input + 1, byteCount := s.byteCount + 1,
           ss := { s.ss with utf8 := u } }

/-- The `Invalid` branch of the loop body: count the malformed unit as one
column and resynchronise. -/
def naInvalid (s : NAState) : NAState :=
  { s with count := s.count + 1, currentClusterWidth := 0, byteCount := 0,
           ss := { s.ss with lastCodepointHint := 0 } }

/-- The `Success` branch of the loop body (lines 142-187 of `scan.cpp`),
applied to the state after the byte was consumed.  The returned flag is
`false` exactly on the two `break` paths (new-cluster budget overflow, and the
VS16 forced-width overflow). -/
def naSuccess (c : Collab) (maxColumnCount : Nat) (nextCodepoint : Nat)
    (s : NAState) : NAState × Bool :=
  let prevCodepoint := s.ss.lastCodepointHint
  let nextWidth := max s.currentClusterWidth (c.width nextCodepoint)
  let s := { s with ss := { s.ss with lastCodepointHint := nextCodepoint } }
  if c.breakable prevCodepoint nextCodepoint then
    let count := s.count + s.currentClusterWidth
    if count + nextWidth > maxColumnCount then
      ({ s with count := count, currentClusterWidth := 0,
                input := s.input - s.byteCount }, false)
    else
      ({ s with count := count, currentClusterWidth := nextWidth,
                clusterStart := s.lastCodepointStart,
                lastCodepointStart := s.input - s.byteCount,
                byteCount := 0, resultEnd := (s.input : Int) }, true)
  else
    let s := { s with resultEnd := (s.input : Int) }
    if nextCodepoint = 0xFE0F then
      let s := { s with currentClusterWidth := 2 }
      if s.count + s.currentClusterWidth > maxColumnCount then
        ({ s with currentClusterWidth := 0, input := s.clusterStart }, false)
      else
        ({ s with lastCodepointStart := s.input - s.byteCount }, true)
    else
      ({ s with lastCodepointStart := s.input - s.byteCount }, true)

/-- One iteration of the complex-span loop body on byte `b`. -/
def naStep (c : Collab) (maxColumnCount : Nat) (b : Nat) (s : NAState) :
    NAState × Bool :=
  let r := from_utf8 s.ss.utf8 b
  match r.2 with
  | ConvertResult.Incomplete => (naAdv r.1 s, true)
  | ConvertResult.Success cp => naSuccess c maxColumnCount cp (naAdv r.1 s)
  | ConvertResult.Invalid => (naInvalid (naAdv r.1 s), true)

/-- The loop of `detail::scan_for_text_nonascii`: run while input remains, the
count has not passed the budget, and the next byte is complex. -/
def naLoop (c : Collab) (maxColumnCount : Nat) : List Nat → NAState → NAState
  | [], s => s
  | b :: rest, s =>
    if s.count ≤ maxColumnCount ∧ is_complex b = true then
      match naStep c maxColumnCount b s with
      | (s1, true) => naLoop c maxColumnCount rest s1
      | (s1, false) => s1
    else s

/-- `detail::scan_for_text_nonascii`: run the loop from the initial local
state and flush the still-pending cluster width into the count. -/
def scan_for_text_nonascii (c : Collab) (state : scan_state) (text : List Nat)
    (maxColumnCount : Nat) : scan_state × scan_result :=
  let resultStart : Int :=
    if state.utf8.expectedLength ≠ 0 then -(state.utf8.currentLength : Int) else 0
  let s0 : NAState :=
    { count := 0, input := 0, byteCount := 0, clusterStart := 0,
      lastCodepointStart := 0, currentClusterWidth := 0,
      resultEnd := resultStart, ss := state }
  let s := naLoop c maxColumnCount text s0
  (s.ss, { count := s.count + s.currentClusterWidth, next := (s.input : Int),
           start := resultStart, «end» := s.resultEnd })

/-- Modelled from the spec: a concrete sample instantiation of the external
collaborators `display_width` and `is_boundary` (section 6), used for concrete
evaluations: U+4E00 is wide (2 columns), the variation selector U+FE0F is
zero-width, everything else is one column; every codepoint starts a new
cluster except U+FE0F, and a reset previous codepoint (0) is always a
boundary. -/
def specCollab : Collab :=
  { width := fun cp => if cp = 0x4E00 then 2 else if cp = 0xFE0F then 0 else 1,
    breakable := fun prev next => prev == 0 || next != 0xFE0F }

/-- The driver's alternation state (`NextState` in `scan_for_text`). -/
inductive NextState : Type where
  | Trivial : NextState
  | Complex : NextState

/-- The working sub-span of the driver: the suffix of the buffer from absolute
offset `lo`.  A negative `lo` (possible after rebasing onto a negative
`result.end`) is an out-of-bounds access, modelled as `none`. -/
def windowAt (bytes : List Nat) (lo : Int) : Option (List Nat) :=
  if lo < 0 then none else some (bytes.drop lo.toNat)

/-- Read the byte at absolute offset `i`, `none` when out of bounds. -/
def byteAt (bytes : List Nat) (i : Int) : Option Nat :=
  if i < 0 then none else bytes[i.toNat]?

/-- The driver loop of `scan_for_text` (lines 237-262): while the budget is
not exhausted and `next` has not reached the end of the buffer, dispatch to
the scanner selected by the alternation state, absorb its result, and advance
the working sub-span.  The fuel only bounds the recursion; `scan_for_text`
passes more than the loop can ever use. -/
def driverLoop (c : Collab) (bytes : List Nat) (maxColumnCount : Nat) :
    Nat → scan_state → scan_result → Int → NextState →
    Option (scan_state × scan_result)
  | 0, _, _, _, _ => none
  | fuel + 1, s, result, lo, ns =>
    if result.count < maxColumnCount ∧ result.next ≠ (bytes.length : Int) then
      match ns with
      | NextState.Trivial =>
        match windowAt bytes lo with
        | none => none
        | some w =>
          let cnt := scan_for_text_ascii w (maxColumnCount - result.count)
          if cnt = 0 then some (s, result)
          else
            driverLoop c bytes maxColumnCount fuel s
              { result with count := result.count + cnt,
                            next := result.next + (cnt : Int),
                            «end» := result.«end» + (cnt : Int) }
              (lo + (cnt : Int)) NextState.Complex
      | NextState.Complex =>
        match windowAt bytes lo with
        | none => none
        | some w =>
          let p := scan_for_text_nonascii c s w (maxColumnCount - result.count)
          driverLoop c bytes maxColumnCount fuel p.1
            { result with count := result.count + p.2.count,
                          next := lo + p.2.next,
                          «end» := lo + p.2.«end» }
            (lo + (p.2.«end» - p.2.start)) NextState.Trivial
    else some (s, result)

/-- `scan_for_text`: first finish any pending multi-byte sequence through the
complex-span scanner and rebase the working span onto its `end`, then read the
first byte of the working span to pick the starting scanner (the source does
this read unconditionally — on an empty span it reads past the end, modelled
as `none`), then run the alternation loop. -/
def scan_for_text (c : Collab) (state : scan_state) (text : List Nat)
    (maxColumnCount : Nat) : Option (scan_state × scan_result) :=
  let init : scan_state × scan_result × Int :=
    if state.utf8.expectedLength ≠ 0 then
      let p := scan_for_text_nonascii c state text maxColumnCount
      (p.1, p.2, p.2.«end»)
    else
      (state, { count := 0, next := 0, start := 0, «end» := 0 }, 0)
  match byteAt text init.2.2 with
  | none => none
  | some b =>
    driverLoop c text maxColumnCount (2 * text.length + 4) init.1 init.2.1
      init.2.2 (if is_complex b then NextState.Complex else NextState.Trivial)

/-- `decodesTo u bytes cp`: feeding `bytes` to the decoder from state `u`
yields `Incomplete` on every byte but the last and `Success cp` on the last. -/
def decodesTo (u : utf8_decoder_state) : List Nat → Nat → Bool
  | [], _ => false
  | [b], cp => (from_utf8 u b).2 == ConvertResult.Success cp
  | b :: rest, cp =>
    ((from_utf8 u b).2 == ConvertResult.Incomplete) &&
      decodesTo (from_utf8 u b).1 rest cp

/-- Decoder state after feeding a list of bytes. -/
def feedAll (u : utf8_decoder_state) (l : List Nat) : utf8_decoder_state :=
  l.foldl (fun a b => (from_utf8 a b).1) u

/-- Loop state after consuming a run of bytes whose decode results carried no
other effect (an `Incomplete` run plus the byte-consume part of the final
step). -/
def advN (bb : List Nat) (s : NAState) : NAState :=
  { s with input := s.input + bb.length, byteCount := s.byteCount + bb.length,
           ss := { s.ss with utf8 := feedAll s.ss.utf8 bb } }

lemma asciiPrefixLen_le_length (l : List Nat) : asciiPrefixLen l ≤ l.length := by
  induction l with
  | nil => simp [asciiPrefixLen]
  | cons b rest ih =>
    simp only [asciiPrefixLen, List.length_cons]
    split
    · omega
    · omega

lemma asciiPrefixLen_all (l : List Nat) (h : ∀ b ∈ l, is_ascii b = true) :
    asciiPrefixLen l = l.length := by
  induction l with
  | nil => rfl
  | cons b rest ih =>
    have hb := h b (List.mem_cons_self b rest)
    simp [asciiPrefixLen, hb, ih fun x hx => h x (List.mem_cons_of_mem _ hx)]

lemma asciiPrefixLen_take (l : List Nat) :
    ∀ k, asciiPrefixLen (l.take k) = min (asciiPrefixLen l) k := by
  induction l with
  | nil => intro k; simp [asciiPrefixLen]
  | cons b rest ih =>
    intro k
    cases k with
    | zero => simp [asciiPrefixLen]
    | succ k =>
      simp only [List.take_succ_cons, asciiPrefixLen]
      split
      · rw [ih k]; omega
      · simp

lemma scan_for_text_ascii_le (text : List Nat) (B : Nat) :
    scan_for_text_ascii text B ≤ B := by
  unfold scan_for_text_ascii
  rw [asciiPrefixLen_take]
  have := asciiPrefixLen_le_length text
  omega

lemma scan_for_text_ascii_all (text : List Nat) (B : Nat)
    (h : ∀ b ∈ text, is_ascii b = true) :
    scan_for_text_ascii text B = min text.length B := by
  unfold scan_for_text_ascii
  rw [asciiPrefixLen_take, asciiPrefixLen_all text h]
  omega

lemma scan_for_text_ascii_head_bad (b : Nat) (l : List Nat) (B : Nat)
    (h : is_ascii b = false) : scan_for_text_ascii (b :: l) B = 0 := by
  unfold scan_for_text_ascii
  cases B with
  | zero => simp [asciiPrefixLen]
  | succ k =>
    have hm : min (b :: l).length (k + 1) = min l.length k + 1 := by
      simp [List.length_cons]; omega
    rw [hm]
    simp [asciiPrefixLen, h]

lemma is_ascii_split (b : Nat) (h : is_ascii b = true) :
    is_control b = false ∧ is_complex b = false := by
  simpa [is_ascii, Bool.and_eq_true, Bool.not_eq_true'] using h

/-- The driver on a nonempty all-plain span: one pass of the ASCII fast path
consumes `min length budget` bytes and columns, and the state is untouched. -/
lemma scan_for_text_all_ascii (c : Collab) (s : scan_state) (bytes : List Nat)
    (B : Nat) (hne : bytes ≠ []) (hall : ∀ b ∈ bytes, is_ascii b = true)
    (hexp : s.utf8.expectedLength = 0) :
    scan_for_text c s bytes B =
      some (s, ⟨min bytes.length B, ((min bytes.length B : Nat) : Int), 0,
                ((min bytes.length B : Nat) : Int)⟩) := by
  obtain ⟨b0, rest, rfl⟩ := List.exists_cons_of_ne_nil hne
  have hb0 := is_ascii_split b0 (hall b0 (List.mem_cons_self b0 rest))
  unfold scan_for_text
  simp only [hexp, ne_eq, not_true, eq_self_iff_true, if_false, byteAt,
    List.length_cons, show ¬((0 : Int) < 0) from by norm_num, Int.toNat_zero,
    List.getElem?_cons_zero, hb0.2, Bool.false_eq_true]
  rw [show 2 * (rest.length + 1) + 4 = 2 * (rest.length + 1) + 3 + 1 from rfl]
  rw [driverLoop]
  rcases Nat.eq_zero_or_pos B with hB | hB
  · subst hB
    rw [if_neg (by simp)]
    simp
  · rw [if_pos ⟨hB, by simp [List.length_cons]; omega⟩]
    simp only [windowAt, show ¬((0 : Int) < 0) from by norm_num, if_false,
      Int.toNat_zero, List.drop_zero, Nat.sub_zero,
      scan_for_text_ascii_all (b0 :: rest) B hall, List.length_cons]
    rw [if_neg (by omega)]
    rw [show 2 * (rest.length + 1) + 3 = 2 * (rest.length + 1) + 2 + 1 from rfl]
    rw [driverLoop]
    rw [if_neg (by simp [List.length_cons]; omega)]
    simp

/-- Invariant carried by the complex-span loop: either the pending cluster
still fits in the budget, or the cluster accumulator is empty and the count is
at most one over the budget (reachable only through an `Invalid` byte counted
when the count already equals the budget). -/
def countInv (maxColumnCount : Nat) (s : NAState) : Prop :=
  s.count + s.currentClusterWidth ≤ maxColumnCount ∨
    (s.currentClusterWidth = 0 ∧ s.count ≤ maxColumnCount + 1)

lemma naStep_countInv (c : Collab) (maxColumnCount b : Nat) (s : NAState)
    (hc : s.count ≤ maxColumnCount) (h : countInv maxColumnCount s) :
    countInv maxColumnCount (naStep c maxColumnCount b s).1 := by
  unfold countInv at h ⊢
  unfold naStep naSuccess naAdv naInvalid
  rcases h2 : (from_utf8 s.ss.utf8 b).2 with _ | cp | _ <;> simp only [h2]
  · exact h
  · split_ifs <;> simp only [] <;> omega
  · exact Or.inr ⟨trivial, by omega⟩

lemma naLoop_countInv (c : Collab) (maxColumnCount : Nat) (l : List Nat) :
    ∀ s : NAState, countInv maxColumnCount s →
      countInv maxColumnCount (naLoop c maxColumnCount l s) := by
  induction l with
  | nil => intro s h; simpa [naLoop] using h
  | cons b rest ih =>
    intro s h
    unfold naLoop
    split
    case isTrue hcond =>
      have hstep := naStep_countInv c maxColumnCount b s hcond.1 h
      rcases hp : naStep c maxColumnCount b s with ⟨s1, flag⟩
      rw [hp] at hstep
      cases flag with
      | false => exact hstep
      | true => exact ih s1 hstep
    case isFalse _ => exact h

lemma scan_for_text_nonascii_count_le (c : Collab) (st : scan_state)
    (text : List Nat) (maxColumnCount : Nat) :
    (scan_for_text_nonascii c st text maxColumnCount).2.count ≤
      maxColumnCount + 1 := by
  unfold scan_for_text_nonascii
  have h := naLoop_countInv c maxColumnCount text
      { count := 0, input := 0, byteCount := 0, clusterStart := 0,
        lastCodepointStart := 0, currentClusterWidth := 0,
        resultEnd :=
          if st.utf8.expectedLength ≠ 0 then -(st.utf8.currentLength : Int) else 0,
        ss := st } (Or.inl (by simp))
  unfold countInv at h
  simp only []
  omega

lemma driverLoop_count_le (c : Collab) (bytes : List Nat) (maxColumnCount : Nat) :
    ∀ (fuel : Nat) (s : scan_state) (r : scan_result) (lo : Int) (ns : NextState)
      (p : scan_state × scan_result),
      r.count ≤ maxColumnCount + 1 →
      driverLoop c bytes maxColumnCount fuel s r lo ns = some p →
      p.2.count ≤ maxColumnCount + 1 := by
  intro fuel
  induction fuel with
  | zero => intro s r lo ns p _ h; simp [driverLoop] at h
  | succ fuel ih =>
    intro s r lo ns p hr h
    by_cases hcond : r.count < maxColumnCount ∧ r.next ≠ (bytes.length : Int)
    · cases ns with
      | Trivial =>
        rw [driverLoop, if_pos hcond] at h
        rcases hw : windowAt bytes lo with _ | w <;> rw [hw] at h
        · simp at h
        · simp only [] at h
          by_cases hz : scan_for_text_ascii w (maxColumnCount - r.count) = 0
          · rw [if_pos hz] at h
            rcases Option.some_inj.mp h with rfl
            simpa using hr
          · rw [if_neg hz] at h
            refine ih _ _ _ _ _ ?_ h
            have := scan_for_text_ascii_le w (maxColumnCount - r.count)
            simp only []
            omega
      | Complex =>
        rw [driverLoop, if_pos hcond] at h
        rcases hw : windowAt bytes lo with _ | w <;> rw [hw] at h
        · simp at h
        · simp only [] at h
          refine ih _ _ _ _ _ ?_ h
          have := scan_for_text_nonascii_count_le c s w (maxColumnCount - r.count)
          simp only []
          omega
    · cases ns <;> rw [driverLoop, if_neg hcond] at h <;>
        rcases Option.some_inj.mp h with rfl <;> simpa using hr

lemma from_utf8_success_exp (u : utf8_decoder_state) (b cp : Nat)
    (h : (from_utf8 u b).2 = ConvertResult.Success cp) :
    (from_utf8 u b).1.expectedLength = 0 := by
  unfold from_utf8 at h ⊢
  split_ifs at h ⊢ <;> simp_all

lemma feedAll_cons (u : utf8_decoder_state) (b : Nat) (l : List Nat) :
    feedAll u (b :: l) = feedAll (from_utf8 u b).1 l := rfl

lemma advN_singleton (b : Nat) (s : NAState) :
    advN [b] s = naAdv (from_utf8 s.ss.utf8 b).1 s := rfl

lemma advN_cons (b : Nat) (rest : List Nat) (s : NAState) :
    advN (b :: rest) s = advN rest (naAdv (from_utf8 s.ss.utf8 b).1 s) := by
  unfold advN naAdv
  rcases s with ⟨cnt, inp, bc, cs, lcs, ccw, re, ⟨u, hint⟩⟩
  simp [feedAll_cons, NAState.mk.injEq, scan_state.mk.injEq, List.length_cons]
  omega

/-- Running the complex-span loop over a byte run that decodes to a single
codepoint `cp` is the consume-bytes advance followed by the `Success` branch,
then (unless that branch breaks) the loop on the remaining input. -/
lemma naLoop_decodes (c : Collab) (maxColumnCount : Nat) :
    ∀ (bb : List Nat) (cp : Nat) (s : NAState) (l : List Nat),
      decodesTo s.ss.utf8 bb cp = true → (∀ b ∈ bb, is_complex b = true) →
      s.count ≤ maxColumnCount →
      naLoop c maxColumnCount (bb ++ l) s =
        (if (naSuccess c maxColumnCount cp (advN bb s)).2 = true then
          naLoop c maxColumnCount l (naSuccess c maxColumnCount cp (advN bb s)).1
        else (naSuccess c maxColumnCount cp (advN bb s)).1) := by
  intro bb
  induction bb with
  | nil => intro cp s l hd; simp [decodesTo] at hd
  | cons b rest ih =>
    intro cp s l hd hcx hcnt
    have hb : is_complex b = true := hcx b (List.mem_cons_self b rest)
    cases rest with
    | nil =>
      have hS : (from_utf8 s.ss.utf8 b).2 = ConvertResult.Success cp := by
        simpa [decodesTo] using hd
      rw [List.cons_append, List.nil_append]
      rw [naLoop, if_pos ⟨hcnt, hb⟩]
      simp only [naStep, hS]
      rw [advN_singleton]
      rcases hp : naSuccess c maxColumnCount cp
          (naAdv (from_utf8 s.ss.utf8 b).1 s) with ⟨s1, flag⟩
      cases flag <;> simp
    | cons r2 rr =>
      have h1 : (from_utf8 s.ss.utf8 b).2 = ConvertResult.Incomplete ∧
          decodesTo (from_utf8 s.ss.utf8 b).1 (r2 :: rr) cp = true := by
        simpa [decodesTo] using hd
      rw [List.cons_append]
      rw [naLoop, if_pos ⟨hcnt, hb⟩]
      simp only [naStep, h1.1]
      rw [advN_cons]
      exact ih cp (naAdv (from_utf8 s.ss.utf8 b).1 s) l h1.2
        (fun x hx => hcx x (List.mem_cons_of_mem _ hx)) hcnt

lemma decodesTo_feedAll_exp (cp : Nat) :
    ∀ (bb : List Nat) (u : utf8_decoder_state), decodesTo u bb cp = true →
      (feedAll u bb).expectedLength = 0 := by
  intro bb
  induction bb with
  | nil => intro u h; simp [decodesTo] at h
  | cons b rest ih =>
    intro u h
    cases rest with
    | nil =>
      have hS : (from_utf8 u b).2 = ConvertResult.Success cp := by
        simpa [decodesTo] using h
      rw [feedAll_cons]
      simpa [feedAll] using from_utf8_success_exp u b cp hS
    | cons r2 rr =>
      have h1 : decodesTo (from_utf8 u b).1 (r2 :: rr) cp = true := by
        have := (by simpa [decodesTo] using h :
          (from_utf8 u b).2 = ConvertResult.Incomplete ∧
            decodesTo (from_utf8 u b).1 (r2 :: rr) cp = true)
        exact this.2
      rw [feedAll_cons]
      exact ih _ h1

/-- Decoding U+FE0F from any position not inside a pending sequence. -/
lemma decodesTo_fe0f (u : utf8_decoder_state) (h : u.expectedLength = 0) :
    decodesTo u [0xEF, 0xB8, 0x8F] 0xFE0F = true ∧
      feedAll u [0xEF, 0xB8, 0x8F] = ⟨0xFE0F, 0, 3⟩ := by
  rcases u with ⟨ch, exp, cl⟩
  simp only [] at h
  subst h
  constructor <;> norm_num [decodesTo, feedAll, from_utf8]

set_option maxRecDepth 4000 in
lemma is_complex_of_high : ∀ b : Nat, b < 256 → 0x80 ≤ b → is_complex b = true := by
  decide

set_option maxRecDepth 4000 in
lemma is_ascii_iff_byte : ∀ b : Nat, b < 256 →
    (is_ascii b = true ↔ 0x20 ≤ b ∧ b < 0x80) := by
  decide

lemma from_utf8_invalid_lead (u : utf8_decoder_state) (b : Nat)
    (hexp : u.expectedLength = 0) (h128 : 0x80 ≤ b)
    (hrange : b < 0xC0 ∨ 0xF8 ≤ b) :
    from_utf8 u b = (initialUtf8, ConvertResult.Invalid) := by
  unfold from_utf8
  rw [if_pos hexp]
  split_ifs <;> first | rfl | omega

/-- A lone byte the decoder rejects, followed by nothing or by a plain byte,
is counted as one column; `next` passes it but `end` stays at `start`. -/
lemma scan_for_text_nonascii_invalid_one (c : Collab) (st : scan_state)
    (B b : Nat) (tail : List Nat) (hexp : st.utf8.expectedLength = 0)
    (hb : is_complex b = true)
    (hinv : from_utf8 st.utf8 b = (initialUtf8, ConvertResult.Invalid))
    (htail : tail = [] ∨ ∃ t0 trest, tail = t0 :: trest ∧ is_complex t0 = false) :
    scan_for_text_nonascii c st (b :: tail) B = (freshScanState, ⟨1, 1, 0, 0⟩) := by
  unfold scan_for_text_nonascii
  simp only [hexp, ne_eq, not_true, eq_self_iff_true, if_false]
  rw [naLoop, if_pos ⟨Nat.zero_le B, hb⟩]
  simp only [naStep, hinv]
  rcases htail with rfl | ⟨t0, trest, rfl, ht0⟩
  · simp [naLoop, naInvalid, naAdv, freshScanState]
  · rw [naLoop, if_neg (by simp [ht0])]
    simp [naInvalid, naAdv, freshScanState]

/-- The driver on an invalid lead byte followed by plain text: one column,
`next` past the bad byte, the plain tail not consumed by this call. -/
lemma scan_for_text_invalid_head (c : Collab) (B : Nat) (tail : List Nat)
    (hall : ∀ x ∈ tail, is_ascii x = true) (hB : 1 ≤ B) :
    scan_for_text c freshScanState (255 :: tail) B =
      some (freshScanState, ⟨1, 1, 0, 0⟩) := by
  have hinv : from_utf8 freshScanState.utf8 255 =
      (initialUtf8, ConvertResult.Invalid) :=
    from_utf8_invalid_lead _ _ rfl (by norm_num) (Or.inr (by norm_num))
  have hsub := scan_for_text_nonascii_invalid_one c freshScanState B 255 tail rfl
    (by decide) hinv ?side
  case side =>
    cases tail with
    | nil => exact Or.inl rfl
    | cons t0 trest =>
      exact Or.inr ⟨t0, trest, rfl,
        (is_ascii_split t0 (hall t0 (List.mem_cons_self t0 trest))).2⟩
  unfold scan_for_text
  simp only [ne_eq, show freshScanState.utf8.expectedLength = 0 from rfl,
    not_true, eq_self_iff_true, if_false, byteAt,
    show ¬((0 : Int) < 0) from by norm_num, Int.toNat_zero,
    List.getElem?_cons_zero, show is_complex 255 = true from by decide,
    if_true, List.length_cons]
  rw [show 2 * (tail.length + 1) + 4 = 2 * (tail.length + 1) + 3 + 1 from rfl]
  rw [driverLoop]
  rw [if_pos ⟨hB, by simp; omega⟩]
  simp only [windowAt, show ¬((0 : Int) < 0) from by norm_num, if_false,
    Int.toNat_zero, List.drop_zero, Nat.sub_zero]
  rw [hsub]
  norm_num
  rw [show 2 * (tail.length + 1) + 3 = 2 * (tail.length + 1) + 2 + 1 from rfl]
  rw [driverLoop]
  rcases Nat.lt_or_ge 1 B with h1B | h1B
  · cases tail with
    | nil =>
      rw [if_neg (by simp)]
    | cons t0 trest =>
      rw [if_pos ⟨by simpa using h1B, by simp [List.length_cons]; omega⟩]
      simp only [windowAt, show ¬((0 : Int) < 0) from by norm_num, if_false,
        Int.toNat_zero, List.drop_zero]
      rw [scan_for_text_ascii_head_bad 255 (t0 :: trest) _ (by decide)]
      simp
  · have hB1 : B = 1 := by omega
    subst hB1
    rw [if_neg (by simp)]

lemma asciiPrefixLen_eq_takeWhile (l : List Nat) (h : ∀ b ∈ l, b < 256) :
    asciiPrefixLen l =
      (l.takeWhile fun b => decide (0x20 ≤ b ∧ b < 0x80)).length := by
  induction l with
  | nil => rfl
  | cons b rest ih =>
    have hb := h b (List.mem_cons_self b rest)
    have hdec : is_ascii b = decide (0x20 ≤ b ∧ b < 0x80) := by
      by_cases hq : 0x20 ≤ b ∧ b < 0x80
      · simp [hq, (is_ascii_iff_byte b hb).mpr hq]
      · have hfalse : is_ascii b = false := by
          rcases hia : is_ascii b
          · rfl
          · exact absurd ((is_ascii_iff_byte b hb).mp hia) hq
        simp [hq, hfalse]
    have ih2 := ih fun x hx => h x (List.mem_cons_of_mem _ hx)
    simp only [asciiPrefixLen, List.takeWhile_cons, ← hdec]
    cases hia : is_ascii b <;> simp [hia, ih2]

lemma byteAt_nil (i : Int) : byteAt [] i = none := by
  unfold byteAt
  split <;> simp

lemma scan_for_text_nonascii_nil (c : Collab) (st : scan_state)
    (maxColumnCount : Nat) :
    scan_for_text_nonascii c st [] maxColumnCount =
      (st, { count := 0, next := 0,
             start := if st.utf8.expectedLength ≠ 0 then
               -(st.utf8.currentLength : Int) else 0,
             «end» := if st.utf8.expectedLength ≠ 0 then
               -(st.utf8.currentLength : Int) else 0 }) := rfl

/-- C8: `scan_for_text_ascii` returns the length of the longest prefix of
plain bytes (value at least 0x20, high bit unset), capped at
`min (span length) budget`, one column and one byte each, with no state. -/
theorem c8_ascii_scan (text : List Nat) (maxColumnCount : Nat)
    (hbytes : ∀ b ∈ text, b < 256) :
    scan_for_text_ascii text maxColumnCount =
      min ((text.takeWhile fun b => decide (0x20 ≤ b ∧ b < 0x80)).length)
        (min text.length maxColumnCount) := by
  unfold scan_for_text_ascii
  rw [asciiPrefixLen_take, asciiPrefixLen_eq_takeWhile text hbytes]

/-- Witness for C8 at a concrete input. -/
theorem c8_ascii_scan_witness :
    scan_for_text_ascii [65, 31, 70] 5 =
      min (([65, 31, 70].takeWhile fun b => decide (0x20 ≤ b ∧ b < 0x80)).length)
        (min ([65, 31, 70] : List Nat).length 5) :=
  c8_ascii_scan [65, 31, 70] 5 (by decide)

/-- C9: the scan driver reads the first byte of the working span with no
guard (`text.front()` on line 236); on a zero-length span this is a read past
the end of the span for every scan state and budget, modelled as `none` — the
claimed guard does not exist in the code. -/
theorem c9_empty_span (c : Collab) (st : scan_state) (maxColumnCount : Nat) :
    scan_for_text c st [] maxColumnCount = none := by
  unfold scan_for_text
  by_cases hexp : st.utf8.expectedLength ≠ 0
  · rw [if_pos hexp]
    simp [byteAt_nil]
  · rw [if_neg hexp]
    simp [byteAt_nil]

/-- C10: a byte on which the decoder reports `Invalid` is counted as one
column and advances the input pointer past itself, but never advances the
`end` marker; a single such byte yields `count = 1`, `end = start`,
`next = start + 1`. -/
theorem c10_invalid_byte :
    (∀ (c : Collab) (maxColumnCount b : Nat) (s : NAState),
        (from_utf8 s.ss.utf8 b).2 = ConvertResult.Invalid →
          (naStep c maxColumnCount b s).1.resultEnd = s.resultEnd ∧
          (naStep c maxColumnCount b s).1.input = s.input + 1 ∧
          (naStep c maxColumnCount b s).1.count = s.count + 1 ∧
          (naStep c maxColumnCount b s).2 = true) ∧
    (∀ (c : Collab) (st : scan_state) (maxColumnCount b : Nat),
        st.utf8.expectedLength = 0 → 0x80 ≤ b → b < 0x100 →
        (b < 0xC0 ∨ 0xF8 ≤ b) →
        scan_for_text_nonascii c st [b] maxColumnCount =
          (freshScanState, ⟨1, 1, 0, 0⟩)) := by
  constructor
  · intro c mc b s h
    simp [naStep, h, naInvalid, naAdv]
  · intro c st mc b hexp h1 h2 h3
    exact scan_for_text_nonascii_invalid_one c st mc b [] hexp
      (is_complex_of_high b h2 h1) (from_utf8_invalid_lead _ _ hexp h1 h3)
      (Or.inl rfl)

/-- Witness for C10 at a concrete input. -/
theorem c10_invalid_byte_witness :
    scan_for_text_nonascii specCollab freshScanState [255] 7 =
      (freshScanState, ⟨1, 1, 0, 0⟩) :=
  c10_invalid_byte.2 specCollab freshScanState 7 255 rfl (by norm_num)
    (by norm_num) (Or.inr (by norm_num))

/-- C5 counterexample: on the pure-plain span `[65]` with budget 1 the
fast-path scanner reports one column and one byte, while the complex-span
scanner (fresh state) reports zero columns and consumes zero bytes — the two
scanners do not agree on plain input. -/
theorem c5_agreement_counterexample :
    scan_for_text_ascii [65] 1 = 1 ∧
    (scan_for_text_nonascii specCollab freshScanState [65] 1).2.count = 0 ∧
    (scan_for_text_nonascii specCollab freshScanState [65] 1).2.«end» -
      (scan_for_text_nonascii specCollab freshScanState [65] 1).2.start = 0 ∧
    ¬((scan_for_text_nonascii specCollab freshScanState [65] 1).2.count =
        scan_for_text_ascii [65] 1) := by
  decide

/-- C5 (amended): on a pure plain-ASCII span the fast-path scanner agrees
with the full scan driver on both the column count and the consumed byte
length, while the complex-span scanner consumes nothing on such input (a
plain byte ends its turn immediately). -/
theorem c5_agreement_amended (c : Collab) (s : scan_state) (bytes : List Nat)
    (maxColumnCount : Nat) (hne : bytes ≠ [])
    (hall : ∀ b ∈ bytes, is_ascii b = true)
    (hexp : s.utf8.expectedLength = 0) :
    (scan_for_text c s bytes maxColumnCount).map
        (fun p => (p.2.count, p.2.«end» - p.2.start)) =
      some (scan_for_text_ascii bytes maxColumnCount,
        (scan_for_text_ascii bytes maxColumnCount : Int)) ∧
    (scan_for_text_nonascii c s bytes maxColumnCount).2 = ⟨0, 0, 0, 0⟩ := by
  constructor
  · rw [scan_for_text_all_ascii c s bytes maxColumnCount hne hall hexp,
      scan_for_text_ascii_all bytes maxColumnCount hall]
    simp
  · obtain ⟨b0, rest, rfl⟩ := List.exists_cons_of_ne_nil hne
    have hb0 := is_ascii_split b0 (hall b0 (List.mem_cons_self b0 rest))
    unfold scan_for_text_nonascii
    simp only [hexp, ne_eq, not_true, eq_self_iff_true, if_false]
    rw [naLoop, if_neg (by simp [hb0.2])]
    simp

/-- Witness for C5 (amended) at a concrete input. -/
theorem c5_agreement_amended_witness :
    (scan_for_text specCollab freshScanState [65, 66] 5).map
        (fun p => (p.2.count, p.2.«end» - p.2.start)) =
      some (scan_for_text_ascii [65, 66] 5, (scan_for_text_ascii [65, 66] 5 : Int)) ∧
    (scan_for_text_nonascii specCollab freshScanState [65, 66] 5).2 =
      ⟨0, 0, 0, 0⟩ :=
  c5_agreement_amended specCollab freshScanState [65, 66] 5 (by decide)
    (by decide) rfl

/-- C1 counterexample: with budget 0 a single malformed byte yields count 1,
and the driver with budget 1 on two malformed bytes yields count 2 — the
returned count exceeds the requested budget. -/
theorem c1_count_budget_counterexample :
    ¬((scan_for_text_nonascii specCollab freshScanState [255] 0).2.count ≤ 0) ∧
    (scan_for_text specCollab freshScanState [255, 255] 1).map
        (fun p => p.2.count) = some 2 := by
  decide

/-- C1 (amended): the count returned by the complex-span scanner, and by any
completed driver call, is at most the budget plus one; the excess column can
only come from a malformed byte counted when the budget is already full. -/
theorem c1_count_budget_amended :
    (∀ (c : Collab) (st : scan_state) (text : List Nat) (maxColumnCount : Nat),
        (scan_for_text_nonascii c st text maxColumnCount).2.count ≤
          maxColumnCount + 1) ∧
    (∀ (c : Collab) (st : scan_state) (text : List Nat) (maxColumnCount : Nat)
        (p : scan_state × scan_result),
        scan_for_text c st text maxColumnCount = some p →
          p.2.count ≤ maxColumnCount + 1) := by
  refine ⟨scan_for_text_nonascii_count_le, ?_⟩
  intro c st text maxColumnCount p h
  unfold scan_for_text at h
  by_cases hexp : st.utf8.expectedLength ≠ 0
  · rw [if_pos hexp] at h
    simp only [] at h
    rcases hba : byteAt text
        (scan_for_text_nonascii c st text maxColumnCount).2.«end» with _ | b <;>
      rw [hba] at h
    · simp at h
    · exact driverLoop_count_le c text maxColumnCount _ _ _ _ _ p
        (scan_for_text_nonascii_count_le c st text maxColumnCount) h
  · rw [if_neg hexp] at h
    simp only [] at h
    rcases hba : byteAt text 0 with _ | b <;> rw [hba] at h
    · simp at h
    · exact driverLoop_count_le c text maxColumnCount _ _ _ _ _ p
        (by simp) h

/-- Witness for C1 (amended) at a concrete input. -/
theorem c1_count_budget_witness : (1 : Nat) ≤ 1 + 1 :=
  c1_count_budget_amended.2 specCollab freshScanState [65] 1
    (freshScanState, ⟨1, 1, 0, 1⟩) (by decide)

/-- C2: evaluation at the failing input — U+25B6 followed by U+FE0F with
budget 1 and a fresh state.  The VS16 forced-width overflow rewinds `next` to
the cluster start but leaves `end` past the selector, so `end ≤ next` fails
in the complex-span scanner's result and in the merged driver result.  The
merged result violates the invariant the driver itself asserts
(`assert(result.end <= result.next)`, line 265); on this exact input the
driver leaves through the early zero-progress return at line 244 and so
bypasses that assert, but the returned result still has `end > next`. -/
theorem c2_result_order_evaluation :
    (scan_for_text_nonascii specCollab freshScanState
        [226, 150, 182, 239, 184, 143] 1).2.«end» = 6 ∧
    (scan_for_text_nonascii specCollab freshScanState
        [226, 150, 182, 239, 184, 143] 1).2.next = 0 ∧
    ¬((scan_for_text_nonascii specCollab freshScanState
        [226, 150, 182, 239, 184, 143] 1).2.«end» ≤
      (scan_for_text_nonascii specCollab freshScanState
        [226, 150, 182, 239, 184, 143] 1).2.next) ∧
    (scan_for_text specCollab freshScanState
        [226, 150, 182, 239, 184, 143] 1).map
        (fun p => (p.2.«end», p.2.next)) = some (6, 0) := by
  decide

/-- C3 counterexample: an invalid lead byte followed by plain ASCII text with
a large budget — the call reports one column with `end = 0`, `next = 1`; the
following ASCII text contributes nothing to this result (the claim would
require count 3 with the ASCII bytes consumed). -/
theorem c3_resync_counterexample :
    scan_for_text specCollab freshScanState [255, 65, 66] 10 =
      some (freshScanState, ⟨1, 1, 0, 0⟩) ∧
    ¬((scan_for_text specCollab freshScanState [255, 65, 66] 10).map
        (fun p => p.2.count) = some 3) := by
  decide

/-- C3 (amended): the invalid byte is counted as exactly one column and
`next` advances past it, but the same call consumes nothing further (`end`
stays at the cluster boundary before the invalid byte); the following plain
text is scanned normally by the next call, which resumes at `next` with the
threaded scan state. -/
theorem c3_resync_amended (c : Collab) (tail : List Nat) (B B2 : Nat)
    (hne : tail ≠ []) (hall : ∀ x ∈ tail, is_ascii x = true) (hB : 1 ≤ B) :
    scan_for_text c freshScanState (255 :: tail) B =
      some (freshScanState, ⟨1, 1, 0, 0⟩) ∧
    scan_for_text c freshScanState tail B2 =
      some (freshScanState,
        ⟨min tail.length B2, ((min tail.length B2 : Nat) : Int), 0,
         ((min tail.length B2 : Nat) : Int)⟩) :=
  ⟨scan_for_text_invalid_head c B tail hall hB,
   scan_for_text_all_ascii c freshScanState tail B2 hne hall rfl⟩

/-- Witness for C3 (amended) at a concrete input. -/
theorem c3_resync_amended_witness :
    scan_for_text specCollab freshScanState [255, 65] 5 =
      some (freshScanState, ⟨1, 1, 0, 0⟩) ∧
    scan_for_text specCollab freshScanState [65] 7 =
      some (freshScanState, ⟨1, 1, 0, 1⟩) := by
  have h := c3_resync_amended specCollab [65] 5 7 (by decide) (by decide)
    (by norm_num)
  simpa using h

/-- C4 counterexample: the stream U+4E00 (width 2) with budget 2 scanned in
one call yields count 2 and offsets 3/3; split as budgets 1 then 1 with the
threaded state, both calls yield count 0 with `next = 0`, so the split total
0 differs from the one-call total 2 and the final offsets differ. -/
theorem c4_split_counterexample :
    scan_for_text specCollab freshScanState [228, 184, 128] 2 =
      some (⟨⟨19968, 0, 3⟩, 19968⟩, ⟨2, 3, 0, 3⟩) ∧
    scan_for_text specCollab freshScanState [228, 184, 128] 1 =
      some (⟨⟨19968, 0, 3⟩, 19968⟩, ⟨0, 0, 0, 0⟩) ∧
    scan_for_text specCollab (⟨⟨19968, 0, 3⟩, 19968⟩ : scan_state)
        [228, 184, 128] 1 =
      some (⟨⟨19968, 0, 3⟩, 19968⟩, ⟨0, 0, 0, 0⟩) ∧
    (0 + 0 : Nat) ≠ 2 := by
  decide

/-- C4 (amended): on a stream of plain ASCII bytes, with a split whose first
budget leaves part of the stream unconsumed, one call of budget `B1 + B2`
yields the same total column count and the same final `end` / `next` offsets
as two successive calls of budgets `B1` then `B2` threading the same scan
state (the second call resumes at the first call's `next`, offset `B1`). -/
theorem c4_split_amended (c : Collab) (s : scan_state) (bytes : List Nat)
    (B1 B2 : Nat) (hall : ∀ b ∈ bytes, is_ascii b = true)
    (hexp : s.utf8.expectedLength = 0) (_hB2 : 0 < B2)
    (hB1 : B1 < bytes.length) :
    scan_for_text c s bytes (B1 + B2) =
      some (s, ⟨min bytes.length (B1 + B2),
        ((min bytes.length (B1 + B2) : Nat) : Int), 0,
        ((min bytes.length (B1 + B2) : Nat) : Int)⟩) ∧
    scan_for_text c s bytes B1 = some (s, ⟨B1, (B1 : Int), 0, (B1 : Int)⟩) ∧
    scan_for_text c s (bytes.drop B1) B2 =
      some (s, ⟨min (bytes.length - B1) B2,
        ((min (bytes.length - B1) B2 : Nat) : Int), 0,
        ((min (bytes.length - B1) B2 : Nat) : Int)⟩) ∧
    B1 + min (bytes.length - B1) B2 = min bytes.length (B1 + B2) := by
  have hne : bytes ≠ [] := by
    intro hnil
    rw [hnil] at hB1
    simp at hB1
  have hdroplen : (bytes.drop B1).length = bytes.length - B1 :=
    List.length_drop _ _
  have hdropne : bytes.drop B1 ≠ [] := by
    intro hnil
    rw [hnil] at hdroplen
    simp at hdroplen
    omega
  refine ⟨scan_for_text_all_ascii c s bytes (B1 + B2) hne hall hexp, ?_, ?_,
    by omega⟩
  · have h := scan_for_text_all_ascii c s bytes B1 hne hall hexp
    rw [h]
    have hmin : min bytes.length B1 = B1 := by omega
    rw [hmin]
  · have h := scan_for_text_all_ascii c s (bytes.drop B1) B2 hdropne
      (fun b hb => hall b (List.mem_of_mem_drop hb)) hexp
    rw [h, hdroplen]

/-- Witness for C4 (amended) at a concrete input. -/
theorem c4_split_amended_witness :
    scan_for_text specCollab freshScanState [65, 66, 67] 2 =
      some (freshScanState, ⟨2, 2, 0, 2⟩) ∧
    scan_for_text specCollab freshScanState [65, 66, 67] 1 =
      some (freshScanState, ⟨1, 1, 0, 1⟩) ∧
    scan_for_text specCollab freshScanState [66, 67] 1 =
      some (freshScanState, ⟨1, 1, 0, 1⟩) ∧
    1 + 1 = 2 := by
  have h := c4_split_amended specCollab freshScanState [65, 66, 67] 1 1
    (by decide) rfl (by norm_num) (by norm_num)
  simpa using h

/-- When the whole remaining span is one decoded run, the loop ends at the
`Success` branch's outcome whether or not it breaks. -/
lemma naLoop_decodes_all (c : Collab) (maxColumnCount : Nat) (bb : List Nat)
    (cp : Nat) (s : NAState) (hd : decodesTo s.ss.utf8 bb cp = true)
    (hcx : ∀ b ∈ bb, is_complex b = true) (hcnt : s.count ≤ maxColumnCount) :
    naLoop c maxColumnCount bb s =
      (naSuccess c maxColumnCount cp (advN bb s)).1 := by
  have h := naLoop_decodes c maxColumnCount bb cp s [] hd hcx hcnt
  rw [List.append_nil] at h
  rw [h]
  split <;> simp [naLoop]

/-- A width-1 base codepoint widened to 2 by U+FE0F, scanned from a fresh
state with budget 1: the VS16 overflow rewinds `next` to the cluster start,
but `end` is left past the selector. -/
lemma vs16_budget_one (c : Collab) (bb : List Nat) (base : Nat)
    (hdec : decodesTo initialUtf8 bb base = true)
    (hcx : ∀ b ∈ bb, is_complex b = true)
    (hw : c.width base = 1) (hbr0 : c.breakable 0 base = true)
    (hbrV : c.breakable base 0xFE0F = false) :
    (scan_for_text_nonascii c freshScanState (bb ++ [0xEF, 0xB8, 0x8F]) 1).2 =
      ⟨0, 0, 0, ((bb.length + 3 : Nat) : Int)⟩ := by
  have hfe := decodesTo_fe0f (feedAll initialUtf8 bb)
    (decodesTo_feedAll_exp base bb initialUtf8 hdec)
  unfold scan_for_text_nonascii
  simp only [show freshScanState.utf8.expectedLength = 0 from rfl, ne_eq,
    not_true, eq_self_iff_true, if_false]
  rw [naLoop_decodes c 1 bb base _ [0xEF, 0xB8, 0x8F] hdec hcx (Nat.zero_le 1)]
  simp only [naSuccess, advN, naAdv, hbr0, hw, Nat.zero_max,
    show freshScanState.lastCodepointHint = 0 from rfl,
    show freshScanState.utf8 = initialUtf8 from rfl]
  norm_num
  rw [naLoop_decodes_all c 1 [239, 184, 143] 65039 _ hfe.1 (by decide)
    (by norm_num)]
  simp only [naSuccess, advN, naAdv, hbrV]
  norm_num

/-- C7 counterexample: U+263A followed by U+FE0F is a grapheme cluster of
display width 2 (the selector forces the width), yet at budget 1 with a fresh
state the code returns `end = 6 ≠ start = 0`: `count` and `next` behave as
claimed, but "nothing consumed (end equal to start)" is false for a cluster
widened to 2 by U+FE0F. -/
theorem c7_wide_overflow_counterexample :
    (scan_for_text_nonascii specCollab freshScanState
        [226, 152, 186, 239, 184, 143] 1).2.count = 0 ∧
    (scan_for_text_nonascii specCollab freshScanState
        [226, 152, 186, 239, 184, 143] 1).2.next = 0 ∧
    (scan_for_text_nonascii specCollab freshScanState
        [226, 152, 186, 239, 184, 143] 1).2.«end» = 6 ∧
    (scan_for_text_nonascii specCollab freshScanState
        [226, 152, 186, 239, 184, 143] 1).2.start = 0 ∧
    ¬((scan_for_text_nonascii specCollab freshScanState
        [226, 152, 186, 239, 184, 143] 1).2.«end» =
      (scan_for_text_nonascii specCollab freshScanState
        [226, 152, 186, 239, 184, 143] 1).2.start) := by
  decide

/-- C7 (amended): an input beginning with a grapheme cluster of display
width 2, scanned with budget exactly 1, yields `count = 0` and `next` at the
start of that cluster.  Nothing-consumed (`end = start`) additionally holds
when the width-2 assessment comes from the cluster's leading codepoint (the
new-cluster overflow rewind); for a cluster widened to 2 by a following
U+FE0F the rewind leaves `end` past the selector, so `end ≠ start` there. -/
theorem c7_wide_overflow :
    (∀ (c : Collab) (st : scan_state) (bb : List Nat) (cp : Nat)
        (rest : List Nat), st.utf8.expectedLength = 0 →
        decodesTo st.utf8 bb cp = true → (∀ b ∈ bb, is_complex b = true) →
        c.width cp = 2 → c.breakable st.lastCodepointHint cp = true →
        (scan_for_text_nonascii c st (bb ++ rest) 1).2 = ⟨0, 0, 0, 0⟩) ∧
    (∀ (c : Collab) (bb : List Nat) (base : Nat),
        decodesTo initialUtf8 bb base = true →
        (∀ b ∈ bb, is_complex b = true) → c.width base = 1 →
        c.breakable 0 base = true → c.breakable base 0xFE0F = false →
        (scan_for_text_nonascii c freshScanState
            (bb ++ [0xEF, 0xB8, 0x8F]) 1).2 =
          ⟨0, 0, 0, ((bb.length + 3 : Nat) : Int)⟩) := by
  constructor
  · intro c st bb cp rest hexp hdec hcx hw hbr
    unfold scan_for_text_nonascii
    simp only [hexp, ne_eq, not_true, eq_self_iff_true, if_false]
    rw [naLoop_decodes c 1 bb cp _ rest hdec hcx (Nat.zero_le 1)]
    simp only [naSuccess, advN, naAdv, hw, hbr]
    norm_num [Nat.zero_max]
  · exact vs16_budget_one

/-- Witness for C7 (amended): U+4E00 followed by a plain byte for the
leading-width-2 case, U+2665 followed by U+FE0F for the VS16-widened case. -/
theorem c7_wide_overflow_witness :
    (scan_for_text_nonascii specCollab freshScanState
        ([228, 184, 128] ++ [65]) 1).2 = ⟨0, 0, 0, 0⟩ ∧
    (scan_for_text_nonascii specCollab freshScanState
        ([226, 153, 165] ++ [0xEF, 0xB8, 0x8F]) 1).2 = ⟨0, 0, 0, 6⟩ := by
  constructor
  · exact c7_wide_overflow.1 specCollab freshScanState [228, 184, 128] 19968
      [65] rfl (by decide) (by decide) (by decide) (by decide)
  · have h := c7_wide_overflow.2 specCollab [226, 153, 165] 0x2665 (by decide)
      (by decide) (by decide) (by decide) (by decide)
    simpa using h

/-- C6: a width-1 base codepoint immediately followed by U+FE0F, scanned from
a fresh state: with budget 2 the scan reports two columns and consumes both
codepoints as one cluster (`end` and `next` past the selector); with budget 1
the VS16 widening overflows, the scan reports zero columns and rewinds `next`
to the start of the cluster. -/
theorem c6_vs16_widening (c : Collab) (bb : List Nat) (base : Nat)
    (hdec : decodesTo initialUtf8 bb base = true)
    (hcx : ∀ b ∈ bb, is_complex b = true)
    (hw : c.width base = 1) (hbr0 : c.breakable 0 base = true)
    (hbrV : c.breakable base 0xFE0F = false) :
    (scan_for_text_nonascii c freshScanState (bb ++ [0xEF, 0xB8, 0x8F]) 2).2 =
      ⟨2, ((bb.length + 3 : Nat) : Int), 0, ((bb.length + 3 : Nat) : Int)⟩ ∧
    (scan_for_text_nonascii c freshScanState (bb ++ [0xEF, 0xB8, 0x8F]) 1).2 =
      ⟨0, 0, 0, ((bb.length + 3 : Nat) : Int)⟩ := by
  have hfe := decodesTo_fe0f (feedAll initialUtf8 bb)
    (decodesTo_feedAll_exp base bb initialUtf8 hdec)
  constructor
  · unfold scan_for_text_nonascii
    simp only [show freshScanState.utf8.expectedLength = 0 from rfl, ne_eq,
      not_true, eq_self_iff_true, if_false]
    rw [naLoop_decodes c 2 bb base _ [0xEF, 0xB8, 0x8F] hdec hcx (Nat.zero_le 2)]
    simp only [naSuccess, advN, naAdv, hbr0, hw, Nat.zero_max,
      show freshScanState.lastCodepointHint = 0 from rfl,
      show freshScanState.utf8 = initialUtf8 from rfl]
    norm_num
    rw [naLoop_decodes_all c 2 [239, 184, 143] 65039 _ hfe.1 (by decide)
      (by norm_num)]
    simp only [naSuccess, advN, naAdv, hbrV]
    norm_num
  · exact vs16_budget_one c bb base hdec hcx hw hbr0 hbrV

/-- Witness for C6 at a concrete input (U+263A followed by U+FE0F). -/
theorem c6_vs16_widening_witness :
    (scan_for_text_nonascii specCollab freshScanState
        ([226, 152, 186] ++ [0xEF, 0xB8, 0x8F]) 2).2 = ⟨2, 6, 0, 6⟩ ∧
    (scan_for_text_nonascii specCollab freshScanState
        ([226, 152, 186] ++ [0xEF, 0xB8, 0x8F]) 1).2 = ⟨0, 0, 0, 6⟩ := by
  have h := c6_vs16_widening specCollab [226, 152, 186] 0x263A (by decide)
    (by decide) (by decide) (by decide) (by decide)
  simpa using h
